import Mathlib

/-!
Shallow embedding of the Luxen booking forms (availability model, booking
conflict filter, blocked-date scanner, pricing engines, phone normaliser and
submission validation) together with proofs about the claims made by the
specification.  Times of day are modelled as minutes (rationals where JS uses
floating point), calendar dates as integer day indices, and JS objects as
Lean structures with `Option` fields for possibly-missing keys.
-/

unseal Rat.add Rat.mul Rat.inv Rat.sub Rat.ofScientific

deriving instance DecidableEq for Except

namespace Luxen

/-! ### JavaScript primitive helpers -/

/-- The leading run of decimal digits of a character list. -/
def leadingDigits : List Char → List Char
  | [] => []
  | c :: cs => if c.isDigit then c :: leadingDigits cs else []

/-- Value of a list of decimal digits, most significant first. -/
def natOfDigits (l : List Char) : ℕ :=
  l.foldl (fun acc c => acc * 10 + (c.toNat - '0'.toNat)) 0

/-- JS `parseInt(s, 10)` for the digit-led strings this code base feeds it
(the NaN result on digit-free input is outside the modelled input space and
is mapped to 0). -/
def jsParseInt (s : String) : ℤ :=
  (natOfDigits (leadingDigits s.data) : ℤ)

/-- Split a character list at every occurrence of `sep`, JS
`String.prototype.split` with a single-character separator. -/
def splitOnChar (sep : Char) : List Char → List (List Char)
  | [] => [[]]
  | c :: cs =>
    if c = sep then [] :: splitOnChar sep cs
    else
      match splitOnChar sep cs with
      | [] => [[c]]
      | g :: gs => (c :: g) :: gs

/-- JS `s.split(sep)` for a one-character separator. -/
def jsSplit (s : String) (sep : Char) : List String :=
  (splitOnChar sep s.data).map String.mk

/-- JS whitespace test for `trim` (the common ASCII whitespace characters). -/
def isJsSpace (c : Char) : Bool :=
  c = ' ' || c = '\t' || c = '\n' || c = '\r'

/-- JS `s.trim()`. -/
def jsTrim (s : String) : String :=
  String.mk (((s.data.dropWhile isJsSpace).reverse.dropWhile isJsSpace).reverse)

/-- Prefix test on the underlying character lists. -/
def listStartsWith : List Char → List Char → Bool
  | _, [] => true
  | [], _ :: _ => false
  | c :: cs, p :: ps => c = p && listStartsWith cs ps

/-- JS `s.startsWith(p)`. -/
def strStartsWith (s p : String) : Bool :=
  listStartsWith s.data p.data

/-- Computable floor of a rational (kernel-reducible, unlike the general
`Int.floor` instance path). -/
def ratFloor (q : ℚ) : ℤ := q.num / (q.den : ℤ)

/-- Computable ceiling of a rational. -/
def ratCeil (q : ℚ) : ℤ := -ratFloor (-q)

/-- JS `Math.round` (round half away from zero is round half up for the
non-negative values used here). -/
def jsRound (x : ℚ) : ℤ := ratFloor (x + 1 / 2)

/-- Round a money amount to 2 decimal places the way the source does:
`Math.round(x * 100) / 100`. -/
def round2 (x : ℚ) : ℚ := (jsRound (x * 100) : ℚ) / 100

/-- Model of `String(n).padStart(2, '0')`. -/
def padStart2 (s : String) : String :=
  if s.length < 2 then String.mk (List.replicate (2 - s.length) '0') ++ s else s

/-- First string of a `||`-chain that is truthy, else the default:
models `a || b` on optional string fields. -/
def orStr (o : Option String) (d : String) : String :=
  match o with
  | some s => if s = "" then d else s
  | none => d

/-- Truthiness of an optional string field (`undefined` and the empty string
are falsy). -/
def truthyOpt : Option String → Bool
  | some s => decide (s ≠ "")
  | none => false

/-- Model of `Math.min` over a list with a default for the (never exercised) empty
case. -/
def listMinD (d : ℚ) : List ℚ → ℚ
  | [] => d
  | x :: xs => xs.foldl min x

/-! ### Shared time helpers (`timeToMinutes`, `within`, `addHoursToTime`) -/

/-- Model of `timeToMinutes`: parse `"HH:MM"` into minutes after midnight. -/
def timeToMinutes (t : String) : ℤ :=
  match jsSplit t ':' with
  | [] => 0
  | hh :: rest => jsParseInt hh * 60 + jsParseInt (rest.headD "0")

/-- Model of `within(x, a, b)`: membership in the half-open interval `[a, b)`. -/
def within (x a b : ℚ) : Bool :=
  decide (a ≤ x) && decide (x < b)

/-- Model of `addHoursToTime(hhmm, hoursFloat)`: add a (possibly fractional) number of
hours to a clock time, formatting the result with integer-division hours and
a modulo-60 minute field; the hour field is NOT reduced modulo 24. -/
def addHoursToTime (hhmm : String) (hoursFloat : ℚ) : String :=
  let parts := jsSplit hhmm ':'
  let hStr := parts.headD ""
  let mStr :=
    match (parts.drop 1).head? with
    | none => "0"
    | some s => if s = "" then "0" else s
  let minutes := jsParseInt hStr * 60 + jsParseInt mStr + jsRound (hoursFloat * 60)
  let endH := Int.fdiv minutes 60
  let endM := Int.tmod minutes 60
  padStart2 (toString endH) ++ ":" ++ padStart2 (toString endM)

/-- The hour part of an `"H:MM"` string, as the code reads it back with
`split(':')[0]`. -/
def hourField (s : String) : ℤ :=
  jsParseInt ((jsSplit s ':').headD "")

/-! ### Availability model (`getDayAvail`) -/

/-- One per-day availability record as stored on a staff document; every
field may be absent. -/
structure AvailEntry where
  available : Bool
  startTime : Option String
  endTime : Option String
  fromTime : Option String
  toTime : Option String
  deriving DecidableEq, Repr

/-- The JS value found under a weekday key of an availability object:
absent (or null/undefined, which the `??` fallback skips over), present but
not an object, or a well-formed record. -/
inductive AvailVal where
  | absent
  | nonObj
  | entry (e : AvailEntry)
  deriving DecidableEq, Repr

/-- An availability object is a lookup from weekday-name keys to values. -/
def AvailObj := String → AvailVal

/-- Model of `titleCaseDay`: capitalise the first character of a weekday name. -/
def titleCaseDay (lower : String) : String :=
  match lower.data with
  | [] => ""
  | c :: cs => String.mk (c.toUpper :: cs)

/-- The normalised day availability returned by `getDayAvail`. -/
structure DayAvail where
  available : Bool
  start : String
  stop : String
  deriving DecidableEq, Repr

/-- The second half of `getDayAvail`: turn the looked-up value into a
normalised record, `null` unless it is an object, with `07:00`/`20:00`
defaults applied independently through the `||` chains. -/
def resolveAvail : AvailVal → Option DayAvail
  | .entry e =>
    some { available := e.available
           start := orStr e.startTime (orStr e.fromTime "07:00")
           stop := orStr e.endTime (orStr e.toTime "20:00") }
  | _ => none

/-- Model of `getDayAvail(availObj, weekdayLower)`: look the weekday up under the
lower-case key, falling back to the capitalised key (the `??` operator), and
normalise the result. -/
def getDayAvail (availObj : AvailObj) (weekdayLower : String) : Option DayAvail :=
  resolveAvail
    (match availObj weekdayLower with
     | .absent => availObj (titleCaseDay weekdayLower)
     | v => v)

/-! ### Staff, bookings and the booking conflict filter (`loadTimes`) -/

/-- A staff document.  `active` and the numeric fields may be absent;
`s.active !== false` keeps a staff member whose flag is missing. -/
structure Staff where
  active : Option Bool
  availability : AvailObj
  minNoticeHours : Option ℚ
  travelBufferMins : Option ℚ

/-- The `active !== false` filter applied to every roster read. -/
def staffActive (s : Staff) : Bool := s.active ≠ some false

/-- An existing booking row; `startTime`/`endTime` may be missing. -/
structure Booking where
  startTime : Option String
  endTime : Option String
  deriving DecidableEq, Repr

/-- The fixed hourly slot grid `ALL_TIMES`. -/
def ALL_TIMES : List String :=
  ["7", "8", "9", "10", "11", "12", "13", "14", "15", "16", "17", "18", "19", "20"]

/-- Whether a staff member is available at all on the weekday (the
`dayStaff` filter). -/
def staffWorks (weekday : String) (s : Staff) : Bool :=
  match getDayAvail s.availability weekday with
  | some av => av.available
  | none => false

/-- Whether one existing booking blocks the slot for a staff member with the
given travel buffer: rows without both times are ignored; otherwise the slot
is blocked when it falls inside the buffer-expanded window
`[max(0, start - buffer), end + buffer)`. -/
def bookingBlocks (buffer : ℚ) (slotMins : ℚ) (b : Booking) : Bool :=
  match b.startTime, b.endTime with
  | some st, some et =>
    if st = "" ∨ et = "" then false
    else
      let bs : ℚ := timeToMinutes st
      let be : ℚ := timeToMinutes et
      within slotMins (max 0 (bs - buffer)) (be + buffer)
  | _, _ => false

/-- Whether a staff member survives for a slot: inside their own
`[start, stop)` window and colliding with no booking. -/
def staffFree (weekday : String) (bookings : List Booking) (slotMins : ℚ)
    (s : Staff) : Bool :=
  match getDayAvail s.availability weekday with
  | none => false
  | some av =>
    av.available &&
      within slotMins (timeToMinutes av.start) (timeToMinutes av.stop) &&
      !(bookings.any (bookingBlocks (s.travelBufferMins.getD 30) slotMins))

/-- The hour label recovered from a slot key, `k.split(':')[0]`. -/
def slotKeyHour (k : String) : String := (jsSplit k ':').headD ""

/-- The booking conflict filter, the pure core of `loadTimes`.  Absolute
instants are minutes on a common clock: `dayStartMins` is midnight of the
selected date and `nowMins` the current instant.  `dateBlocked` is the
`blockedDates.has(key)` test and `removed` the set of slot keys the
unavailability override marks booked. -/
def loadTimes (dateBlocked : Bool) (removed : String → Bool)
    (bookings : List Booking) (roster : List Staff)
    (weekday : String) (dayStartMins nowMins : ℚ) : List String :=
  if dateBlocked then [] else
  let staff := roster.filter staffActive
  let dayStaff := staff.filter (staffWorks weekday)
  if dayStaff.isEmpty then [] else
  let minNotice := listMinD 12 (dayStaff.map (fun s => s.minNoticeHours.getD 12))
  let noticeCutoff := nowMins + minNotice * 60
  let candidate := (ALL_TIMES.map (fun h => h ++ ":00")).filter (fun k => !removed k)
  (candidate.filter (fun k =>
      let slotAbs := dayStartMins + (jsParseInt (slotKeyHour k) : ℚ) * 60
      !(decide (slotAbs < noticeCutoff)) &&
        dayStaff.any (staffFree weekday bookings (timeToMinutes k : ℚ)))).map
    slotKeyHour

/-! ### Blocked-date scanner (`computeBlockedDays`) -/

/-- The global minimum notice: minimum `minNoticeHours` over the active
staff, 12 when the (active) roster is empty. -/
def globalMinNotice (roster : List Staff) : ℚ :=
  let staff := roster.filter staffActive
  if staff.isEmpty then 12
  else listMinD 12 (staff.map (fun s => s.minNoticeHours.getD 12))

/-- Whether some active staff member is available on the weekday. -/
def staffAvailableOn (staff : List Staff) (weekday : String) : Bool :=
  staff.any (staffWorks weekday)

/-- The blocked-date scanner: for every day offset in `[-30, 60)` the date is
added to the blocked set when it is before today, no active staff works that
weekday, or 20:00 of that date is before `now` plus the global minimum
notice.  Dates are integer day indices, `weekdayOf` gives the weekday of a date
name, and `nowMins` is the current instant in minutes. -/
def computeBlockedDays (roster : List Staff) (todayIdx : ℤ) (nowMins : ℚ)
    (weekdayOf : ℤ → String) : List ℤ :=
  let staff := roster.filter staffActive
  ((List.range 90).map (fun i : ℕ => todayIdx - 30 + (i : ℤ))).filter (fun d =>
    decide (d < todayIdx) ||
      !staffAvailableOn staff (weekdayOf d) ||
      decide ((d : ℚ) * 1440 + 1200 < nowMins + globalMinNotice roster * 60))

/-! ### Fail-open / fail-closed wrappers -/

/-- The data `loadTimes` fetches inside its `try` block. -/
structure SlotFetch where
  removed : String → Bool
  bookings : List Booking
  roster : List Staff

/-- Model of `computeBlockedDays` with its surrounding `try`/`catch`: a failed roster
fetch resolves to the empty blocked set and no error escapes. -/
def computeBlockedDaysRun (fetched : Except String (List Staff)) (todayIdx : ℤ)
    (nowMins : ℚ) (weekdayOf : ℤ → String) : List ℤ :=
  match fetched with
  | .error _ => []
  | .ok roster => computeBlockedDays roster todayIdx nowMins weekdayOf

/-- Model of `loadTimes` with its surrounding `try`/`catch`: a failed fetch resolves
to the empty slot list and no error escapes. -/
def loadTimesRun (dateBlocked : Bool) (fetched : Except String SlotFetch)
    (weekday : String) (dayStartMins nowMins : ℚ) : List String :=
  match fetched with
  | .error _ => []
  | .ok f => loadTimes dateBlocked f.removed f.bookings f.roster weekday dayStartMins nowMins

/-! ### Pricing engines -/

/-- Model of `roundUpToHalf(x)`: round up to the nearest half, `Math.ceil(x * 2) / 2`. -/
def roundUpToHalf (x : ℚ) : ℚ := (ratCeil (x * 2) : ℚ) / 2

/-- The quote record shared by all pricing variants (`labour` is persisted
as `labourCharge`). -/
structure Quote where
  estimatedHours : ℚ
  baseEstimatedHours : ℚ
  teamApplied : Bool
  addOnsTotal : ℚ
  suppliesFee : ℚ
  labour : ℚ
  totalPrice : ℚ
  deriving DecidableEq, Repr

/-- Model of `baseEstimatedHours = Math.max(MIN_HOURS, roundUpToHalf(raw))`. -/
def mkBase (minHours raw : ℚ) : ℚ := max minHours (roundUpToHalf raw)

/-- The team decision, `baseEstimatedHours > TEAM_THRESHOLD_HOURS`. -/
def teamOf (threshold base : ℚ) : Bool := decide (base > threshold)

/-- Model of `estimatedHours`: divide by the team factor when the team rule fires,
then round up to the half hour and floor at `MIN_HOURS` again. -/
def mkEst (minHours threshold factor base : ℚ) : ℚ :=
  max minHours (roundUpToHalf (if teamOf threshold base then base / factor else base))

/-- Model of `CLEAN_MULTIPLIER` lookup with the `?? 1` fallback; the empty selection
also yields 1. -/
def cleanMultiplier (c : String) : ℚ :=
  if c = "quite-clean" then 9 / 10
  else if c = "average" then 1
  else if c = "quite-dirty" then 5 / 4
  else if c = "filthy" then 8 / 5
  else 1

/-- The extras counters shared by the office-v2 and promo pages. -/
structure Extras where
  fridge : ℕ
  freezer : ℕ
  dishwasher : ℕ
  cupboards : ℕ
  deriving DecidableEq, Repr

/-- A structured room row (string ids as held in component state; unknown or
empty ids contribute weight 0 through the `?? 0` fallbacks). -/
structure RoomSel where
  typeId : String
  sizeId : String
  deriving DecidableEq, Repr

/-! #### Home-clean variant (count-based residential pricing) -/

/-- Model of `n(s)`: a select value parsed to a count, 0 for the empty selection. -/
def nOf (s : String) : ℤ := if s = "" then 0 else jsParseInt s

/-- The home-clean form fields that feed its pricing. -/
structure HomeForm where
  bedrooms : String
  livingRooms : String
  kitchens : String
  bathrooms : String
  utilityRooms : String
  additionalRooms : List String
  addOns : List String
  cleanliness : String
  products : String
  deriving DecidableEq, Repr

/-- The home-clean add-on price map with its `?? 0` fallback. -/
def homeAddOnPrice (k : String) : ℚ :=
  if k = "Fridge (£20)" then 20
  else if k = "Freezer (£20)" then 20
  else if k = "Oven (£40)" then 40
  else if k = "Ironing (£30)" then 30
  else if k = "Blind cleaning (£20)" then 20
  else 0

/-- The home-clean pricing: room-count weights (utility and additional rooms
weigh one half), cleanliness multiplier, half-hour rounding with a 2-hour
floor, team rule at 4 hours with factor 1.6, £28/hour, £5 supplies fee when
the provider brings products. -/
def pricingHome (f : HomeForm) : Quote :=
  let rawHours : ℚ :=
    (nOf f.bedrooms : ℚ) * 1 + (nOf f.livingRooms : ℚ) * 1 +
      (nOf f.kitchens : ℚ) * 1 + (nOf f.bathrooms : ℚ) * 1 +
      (nOf f.utilityRooms : ℚ) * (1 / 2) +
      (f.additionalRooms.length : ℚ) * (1 / 2)
  let raw := rawHours * cleanMultiplier f.cleanliness
  let base := mkBase 2 raw
  let teamApplied := teamOf 4 base
  let estimated := mkEst 2 4 (8 / 5) base
  let addOnsTotal := (f.addOns.map homeAddOnPrice).sum
  let suppliesFee : ℚ := if f.products = "bring" then 5 else 0
  let labour := estimated * 28
  { estimatedHours := estimated
    baseEstimatedHours := base
    teamApplied := teamApplied
    addOnsTotal := addOnsTotal
    suppliesFee := suppliesFee
    labour := labour
    totalPrice := round2 (labour + addOnsTotal + suppliesFee) }

/-! #### Office variant v2 (structured room list, weekday/weekend rates) -/

/-- Office-v2 size weights (`SIZE_OPTIONS`), `?? 0` on unknown ids. -/
def size2Weight (id : String) : ℚ :=
  if id = "xs" then 3 / 10
  else if id = "s" then 1 / 2
  else if id = "m" then 4 / 5
  else if id = "l" then 11 / 10
  else if id = "xl" then 8 / 5
  else 0

/-- Office-v2 room-type multipliers (`ROOM_TYPES`), `?? 0` on unknown ids. -/
def type2Mult (id : String) : ℚ :=
  if id = "open-plan" then 7 / 5
  else if id = "meeting" then 6 / 5
  else if id = "private-office" then 1
  else if id = "reception" then 11 / 10
  else if id = "corridor" then 7 / 10
  else if id = "storage" then 4 / 5
  else if id = "kitchen" then 13 / 10
  else if id = "bathroom" then 6 / 5
  else 0

/-- The office-v2 pricing: size×type weights, 0.35 h per toilet room,
per-unit add-on hours, cleanliness multiplier, 2-hour floor, team rule at
4 hours with factor 1.7, £30/£32 per hour by weekday/weekend, £5 supplies
fee. -/
def pricingOffice2 (rooms : List RoomSel) (extras : Extras)
    (cleanliness products : String) (weekendSel : Bool) : Quote :=
  let roomHours := (rooms.map (fun r => size2Weight r.sizeId * type2Mult r.typeId)).sum
  let bathroomsCount := (rooms.filter (fun r => r.typeId = "bathroom")).length
  let toiletsHours := (bathroomsCount : ℚ) * (7 / 20)
  let addOnHours : ℚ :=
    (extras.fridge : ℚ) * (1 / 2) + (extras.freezer : ℚ) * (3 / 4) +
      (extras.dishwasher : ℚ) * (1 / 4) + (extras.cupboards : ℚ) * (1 / 4)
  let raw := (roomHours + toiletsHours + addOnHours) * cleanMultiplier cleanliness
  let base := mkBase 2 raw
  let teamApplied := teamOf 4 base
  let estimated := mkEst 2 4 (17 / 10) base
  let addOnsTotal : ℚ :=
    (extras.fridge : ℚ) * 20 + (extras.freezer : ℚ) * 25 +
      (extras.dishwasher : ℚ) * 10 + (extras.cupboards : ℚ) * 0
  let suppliesFee : ℚ := if products = "bring" then 5 else 0
  let hourlyRate : ℚ := if weekendSel then 32 else 30
  let labour := estimated * hourlyRate
  { estimatedHours := estimated
    baseEstimatedHours := base
    teamApplied := teamApplied
    addOnsTotal := addOnsTotal
    suppliesFee := suppliesFee
    labour := labour
    totalPrice := round2 (labour + addOnsTotal + suppliesFee) }

/-! #### Older office variant (6-hour team threshold, kitchen/toilet counters) -/

/-- Older office size weights (no `xs` size), `?? 0` on unknown ids. -/
def size1Weight (id : String) : ℚ :=
  if id = "s" then 1 / 2
  else if id = "m" then 4 / 5
  else if id = "l" then 11 / 10
  else if id = "xl" then 8 / 5
  else 0

/-- Older office room-type multipliers, `?? 0` on unknown ids. -/
def type1Mult (id : String) : ℚ :=
  if id = "open-plan" then 6 / 5
  else if id = "meeting" then 1
  else if id = "private-office" then 4 / 5
  else if id = "reception" then 9 / 10
  else if id = "corridor" then 1 / 2
  else if id = "storage" then 3 / 5
  else 0

/-- Model of `KITCHEN_SIZE_WEIGHT` with the `kitchenSizeId ? table : 0` guard. -/
def kitchenWeight (id : String) : ℚ :=
  if id = "s" then 1 / 2
  else if id = "m" then 4 / 5
  else if id = "l" then 11 / 10
  else if id = "xl" then 8 / 5
  else 0

/-- The older office pricing: size×type weights, kitchen counter times a
size weight, `toiletRoomsCount × max(1, avgCubicles)` cubicles at 0.35 h,
cleanliness multiplier, 2-hour floor, team rule at 6 hours with factor 1.7,
flat £28/hour, £5 supplies fee. -/
def pricingOffice1 (rooms : List RoomSel) (kitchensCount : ℕ)
    (kitchenSizeId : String) (toiletRoomsCount avgCubicles : ℕ)
    (extras : Extras) (cleanliness products : String) : Quote :=
  let roomHours := (rooms.map (fun r => size1Weight r.sizeId * type1Mult r.typeId)).sum
  let kitchensHours := (kitchensCount : ℚ) * kitchenWeight kitchenSizeId
  let totalCubicles := toiletRoomsCount * max 1 avgCubicles
  let toiletsHours := (totalCubicles : ℚ) * (7 / 20)
  let raw := (roomHours + kitchensHours + toiletsHours) * cleanMultiplier cleanliness
  let base := mkBase 2 raw
  let teamApplied := teamOf 6 base
  let estimated := mkEst 2 6 (17 / 10) base
  let addOnsTotal : ℚ :=
    (extras.fridge : ℚ) * 20 + (extras.freezer : ℚ) * 25 +
      (extras.dishwasher : ℚ) * 10 + (extras.cupboards : ℚ) * 0
  let suppliesFee : ℚ := if products = "bring" then 5 else 0
  let labour := estimated * 28
  { estimatedHours := estimated
    baseEstimatedHours := base
    teamApplied := teamApplied
    addOnsTotal := addOnsTotal
    suppliesFee := suppliesFee
    labour := labour
    totalPrice := round2 (labour + addOnsTotal + suppliesFee) }

/-! #### Promotional one-room variant (flat deposit) -/

/-- The promo page pins every quote: one hour, no charges, and a flat £25
deposit as the total. -/
def pricingPromo : Quote :=
  { estimatedHours := 1
    baseEstimatedHours := 1
    teamApplied := false
    addOnsTotal := 0
    suppliesFee := 0
    labour := 0
    totalPrice := 25 }

/-! ### Phone normaliser (`toE164UK`) -/

/-- Model of `toE164UK(raw)`: strip non-digits; a leading `0` with at least ten digits
becomes `+44`; digits already starting `44` get a `+`; otherwise an input
that itself starts with `+` is kept trimmed; otherwise `+` is prefixed to
the digits.  The empty input returns `null`. -/
def toE164UK (raw : String) : Option String :=
  if raw = "" then none
  else
    let digits := String.mk (raw.data.filter Char.isDigit)
    if strStartsWith digits "0" ∧ 10 ≤ digits.length then
      some ("+44" ++ String.mk (digits.data.drop 1))
    else if strStartsWith digits "44" then
      some ("+" ++ digits)
    else if strStartsWith (jsTrim raw) "+" then
      some (jsTrim raw)
    else
      some ("+" ++ digits)

/-! ### Staff-pay helpers (promo page) -/

/-- Substring containment on character lists. -/
def listContainsSub (sub : List Char) : List Char → Bool
  | [] => listStartsWith [] sub
  | c :: cs => listStartsWith (c :: cs) sub || listContainsSub sub cs

/-- JS `s.includes(sub)`. -/
def strContains (s sub : String) : Bool := listContainsSub sub.data s.data

/-- JS `s.toLowerCase()` (ASCII, which is all this code base feeds it). -/
def jsToLower (s : String) : String := String.mk (s.data.map Char.toLower)

/-- Day of week of a Gregorian calendar date, 0 = Sunday, matching what JS
`new Date(y, m-1, d).getDay()` returns for in-range dates. -/
def dayOfWeek (y m d : ℤ) : ℤ :=
  let t : List ℤ := [0, 3, 2, 5, 0, 3, 5, 1, 4, 6, 2, 4]
  let y2 := if m < 3 then y - 1 else y
  (y2 + y2.fdiv 4 - y2.fdiv 100 + y2.fdiv 400 + t.getD (m - 1).toNat 0 + d).emod 7

/-- Model of `isWeekendYmd(dateStr)`: parse a `YYYY-MM-DD` key and test for
Saturday/Sunday; empty or zero-component inputs are not weekends. -/
def isWeekendYmd (dateStr : String) : Bool :=
  if dateStr = "" then false
  else
    let parts := jsSplit dateStr '-'
    let y := jsParseInt (parts.headD "")
    let m := jsParseInt ((parts.drop 1).headD "")
    let d := jsParseInt ((parts.drop 2).headD "")
    if y = 0 ∨ m = 0 ∨ d = 0 then false
    else
      let day := dayOfWeek y m d
      decide (day = 0) || decide (day = 6)

/-- Model of `getStaffRateForJob`: £21/£23 for deep cleans, £15/£17 otherwise, the
higher rate on weekends. -/
def getStaffRateForJob (serviceType dateStr : String) : ℚ :=
  let st := jsToLower serviceType
  let weekendJob := isWeekendYmd dateStr
  if strContains st "deep" then (if weekendJob then 23 else 21)
  else (if weekendJob then 17 else 15)

/-! ### Submission orchestrators -/

/-- The externally visible side effects a submission can perform, in
program order. -/
inductive Effect where
  | persistBooking
  | zapWebhook
  | ledgerIncome
  | ledgerExpense
  deriving DecidableEq, Repr

/-- The effects actually performed: none on a validation error. -/
def effectsOf (r : Except String (List Effect)) : List Effect :=
  match r with
  | .ok effs => effs
  | .error _ => []

/-- Whether the submission aborted before performing anything. -/
def aborted (r : Except String (List Effect)) : Bool :=
  match r with
  | .error _ => true
  | .ok _ => false

/-- The contact/address fields of the promo form that validation and the
side effects read. -/
structure PromoForm where
  customerName : String
  customerEmail : String
  customerPhone : String
  addressLine1 : String
  town : String
  postcode : String
  products : String
  serviceType : String
  deriving DecidableEq, Repr

/-- The promo page submit: four validation gates (date/time, contact,
address with postcode, products) abort before any effect; a passing
submission persists the booking, fires the webhook, writes the income
ledger entry, and writes the staff-pay expense when the computed pay is
positive.  `selectedDate` is the `YYYY-MM-DD` key of the chosen date,
`none` when unselected. -/
def onSubmitPromo (selectedDate : Option String) (selectedTime : String)
    (f : PromoForm) : Except String (List Effect) :=
  if selectedDate = none ∨ selectedTime = "" then
    .error "Please select date and time."
  else if f.customerName = "" ∨ f.customerEmail = "" ∨ f.customerPhone = "" then
    .error "Please fill name, email, and phone."
  else if f.addressLine1 = "" ∨ f.town = "" ∨ f.postcode = "" then
    .error "Please enter your address (line 1, town/city and postcode)."
  else if f.products = "" then
    .error "Please select who will provide the cleaning products."
  else
    let bookingDate := selectedDate.getD ""
    let serviceType := if f.serviceType = "" then "One Room Clean" else f.serviceType
    let staffRate := getStaffRateForJob serviceType bookingDate
    let staffPayTotal :=
      pricingPromo.estimatedHours * staffRate *
        (if pricingPromo.teamApplied then 2 else 1)
    .ok ([.persistBooking, .zapWebhook, .ledgerIncome] ++
      if staffPayTotal > 0 then [.ledgerExpense] else [])

/-- The contact/address fields of the office-v2 form. -/
structure Office2Form where
  customerName : String
  customerEmail : String
  customerPhone : String
  addressLine1 : String
  town : String
  postcode : String
  deriving DecidableEq, Repr

/-- The office-v2 submit: validates date/time, contact and the site address
(with postcode) before any effect; a passing submission persists, fires the
webhook, writes the income entry and the staff-pay expense (rate £12.21 per
hour per cleaner). -/
def onSubmitOffice2 (selectedDate : Option String) (selectedTime : String)
    (f : Office2Form) (q : Quote) : Except String (List Effect) :=
  if selectedDate = none ∨ selectedTime = "" then
    .error "Please select date and time."
  else if f.customerName = "" ∨ f.customerEmail = "" ∨ f.customerPhone = "" then
    .error "Please fill name, email, and phone."
  else if f.addressLine1 = "" ∨ f.town = "" ∨ f.postcode = "" then
    .error "Please select or enter the site address."
  else
    let staffPayTotal := q.estimatedHours * (1221 / 100) * (if q.teamApplied then 2 else 1)
    .ok ([.persistBooking, .zapWebhook, .ledgerIncome] ++
      if staffPayTotal > 0 then [.ledgerExpense] else [])

/-- The fields of the older office form that its submit reads (the address
fields are collected but never validated). -/
structure Office1Form where
  customerName : String
  customerEmail : String
  customerPhone : String
  addressLine1 : String
  town : String
  postcode : String
  deriving DecidableEq, Repr

/-- The older office submit: validates only date/time and contact fields,
then writes the booking document; the address (including the postcode) is
persisted unchecked and no webhook or ledger write exists in this variant. -/
def onSubmitOffice1 (selectedDate : Option String) (selectedTime : String)
    (f : Office1Form) : Except String (List Effect) :=
  if selectedDate = none ∨ selectedTime = "" then
    .error "Please select date and time."
  else if f.customerName = "" ∨ f.customerEmail = "" ∨ f.customerPhone = "" then
    .error "Please fill name, email, and phone."
  else
    .ok [.persistBooking]

/-- The contact fields of the home-clean form (its submit also skips any
address validation). -/
structure Home4Form where
  customerName : String
  customerEmail : String
  customerPhone : String
  postcode : String
  deriving DecidableEq, Repr

/-- The home-clean submit: validates only date/time and contact fields; a
passing submission posts to the Zapier webhook when one is configured and
then writes the booking document. -/
def onSubmitHome4 (zapConfigured : Bool) (selectedDate : Option String)
    (selectedTime : String) (f : Home4Form) : Except String (List Effect) :=
  if selectedDate = none ∨ selectedTime = "" then
    .error "Please select date and time."
  else if f.customerName = "" ∨ f.customerEmail = "" ∨ f.customerPhone = "" then
    .error "Please fill name, email, and phone."
  else
    .ok ((if zapConfigured then [.zapWebhook] else []) ++ [.persistBooking])

/-! ### Statement-level definitions used by the claim theorems -/

/-- The Quote invariant of the data model: the estimate never drops below
the minimum of the variant and the total is the 2-decimal rounding of
labour + add-ons + supplies. -/
def quoteInvariant (q : Quote) (minHours : ℚ) : Prop :=
  minHours ≤ q.estimatedHours ∧
    q.totalPrice = round2 (q.labour + q.addOnsTotal + q.suppliesFee)

/-- The team-size rule of a quote for the minimum, threshold and
factor: `teamApplied` fires exactly above the threshold, the estimate is
recomputed from the base by factor division (re-rounded and re-floored)
exactly then, and the estimate never exceeds the base. -/
def teamRuleSpec (q : Quote) (minHours threshold factor : ℚ) : Prop :=
  q.teamApplied = decide (q.baseEstimatedHours > threshold) ∧
    q.estimatedHours =
      (if q.baseEstimatedHours > threshold
       then max minHours (roundUpToHalf (q.baseEstimatedHours / factor))
       else q.baseEstimatedHours) ∧
    q.estimatedHours ≤ q.baseEstimatedHours

/-- Modelled from the spec: the end-time string the claim describes —
the total minutes rendered with the hour taken by integer division and NOT
reduced modulo 24, the minutes modulo 60, both zero-padded to two digits. -/
def endTimeOfMinutes (m : ℤ) : String :=
  padStart2 (toString (Int.fdiv m 60)) ++ ":" ++ padStart2 (toString (Int.tmod m 60))

/-- A staff member available 09:00–17:00 on Mondays with a 30-minute travel
buffer and no notice requirement (the concrete roster of the conflict-filter
scenario). -/
def staffNine2Five : Staff :=
  { active := some true
    availability := fun d =>
      if d = "monday" then
        .entry { available := true, startTime := some "09:00",
                 endTime := some "17:00", fromTime := none, toTime := none }
      else .absent
    minNoticeHours := some 0
    travelBufferMins := some 30 }

/-- The existing 12:00–13:00 booking of the conflict-filter scenario. -/
def bookingNoon : Booking := { startTime := some "12:00", endTime := some "13:00" }

/-- A home-clean form whose quote lands on exactly 5 estimated hours
(seven bedrooms and one utility room). -/
def homeFormFiveHours : HomeForm :=
  { bedrooms := "7", livingRooms := "", kitchens := "", bathrooms := ""
    utilityRooms := "1", additionalRooms := [], addOns := []
    cleanliness := "", products := "" }

/-- The availability object of the independent-defaults example: only a
Monday entry, carrying only `available` and an end time. -/
def exampleAvailObj : AvailObj := fun day =>
  if day = "monday" then
    .entry { available := true, startTime := none, endTime := some "18:00",
             fromTime := none, toTime := none }
  else .absent

/-- An older-office submission state with complete contact details but the
postcode (and the rest of the address) left empty. -/
def missingPostcodeForm : Office1Form :=
  { customerName := "Jane Doe", customerEmail := "jane@example.com",
    customerPhone := "07123456789", addressLine1 := "", town := "", postcode := "" }

end Luxen


namespace Luxen

/-! ### Supporting lemmas -/

theorem ratFloor_eq (q : ℚ) : ratFloor q = ⌊q⌋ := Rat.floor_def.symm

theorem ratCeil_eq (q : ℚ) : ratCeil q = ⌈q⌉ := by
  rw [ratCeil, ratFloor_eq, Int.floor_neg, neg_neg]

theorem roundUpToHalf_le_add_half (x : ℚ) : roundUpToHalf x ≤ x + 1 / 2 := by
  rw [roundUpToHalf, ratCeil_eq]
  have h : (⌈x * 2⌉ : ℚ) < x * 2 + 1 := Int.ceil_lt_add_one (x * 2)
  linarith

theorem roundUpToHalf_half_int (k : ℤ) :
    roundUpToHalf ((k : ℚ) / 2) = (k : ℚ) / 2 := by
  rw [roundUpToHalf, ratCeil_eq, div_mul_cancel₀ _ (by norm_num : (2 : ℚ) ≠ 0),
    Int.ceil_intCast]

theorem mkBase_half (minHours raw : ℚ) (h : ∃ j : ℤ, minHours = (j : ℚ) / 2) :
    ∃ k : ℤ, mkBase minHours raw = (k : ℚ) / 2 := by
  obtain ⟨j, hj⟩ := h
  rcases le_total minHours (roundUpToHalf raw) with h1 | h1
  · exact ⟨ratCeil (raw * 2), by rw [mkBase, max_eq_right h1, roundUpToHalf]⟩
  · exact ⟨j, by rw [mkBase, max_eq_left h1, hj]⟩

theorem teamRule_core (minHours threshold factor raw : ℚ)
    (hhalf : ∃ j : ℤ, minHours = (j : ℚ) / 2)
    (hfac : 1 < factor)
    (hthr : 1 / 2 ≤ threshold * (1 - 1 / factor)) :
    teamOf threshold (mkBase minHours raw) =
        decide (mkBase minHours raw > threshold) ∧
      mkEst minHours threshold factor (mkBase minHours raw) =
        (if mkBase minHours raw > threshold
         then max minHours (roundUpToHalf (mkBase minHours raw / factor))
         else mkBase minHours raw) ∧
      mkEst minHours threshold factor (mkBase minHours raw) ≤ mkBase minHours raw := by
  have hmin : minHours ≤ mkBase minHours raw := le_max_left _ _
  obtain ⟨k, hk⟩ := mkBase_half minHours raw hhalf
  have hkey : mkEst minHours threshold factor (mkBase minHours raw) =
      (if mkBase minHours raw > threshold
       then max minHours (roundUpToHalf (mkBase minHours raw / factor))
       else mkBase minHours raw) := by
    by_cases ht : mkBase minHours raw > threshold
    · rw [if_pos ht, mkEst, teamOf, decide_eq_true ht, if_pos rfl]
    · rw [if_neg ht, mkEst, teamOf]
      rw [decide_eq_false ht]
      simp only [Bool.false_eq_true, if_false]
      rw [hk, roundUpToHalf_half_int, ← hk]
      exact max_eq_right hmin
  refine ⟨rfl, hkey, ?_⟩
  rw [hkey]
  by_cases ht : mkBase minHours raw > threshold
  · rw [if_pos ht]
    have hfac0 : (0 : ℚ) < factor := lt_trans one_pos hfac
    refine max_le hmin ?_
    have h1 := roundUpToHalf_le_add_half (mkBase minHours raw / factor)
    have hpos : (0 : ℚ) < 1 - 1 / factor := by
      rw [sub_pos, div_lt_one hfac0]; exact hfac
    have h2 : threshold * (1 - 1 / factor) ≤ mkBase minHours raw * (1 - 1 / factor) :=
      mul_le_mul_of_nonneg_right (le_of_lt ht) (le_of_lt hpos)
    have h3 : mkBase minHours raw * (1 - 1 / factor) =
        mkBase minHours raw - mkBase minHours raw / factor := by
      rw [mul_sub, mul_one, mul_one_div]
    linarith
  · rw [if_neg ht]

theorem orStr_of_falsy (o : Option String) (d : String) (h : truthyOpt o = false) :
    orStr o d = d := by
  cases o with
  | none => rfl
  | some s =>
    have hs : s = "" := by simpa [truthyOpt] using h
    simp [orStr, hs]

theorem allTimes_sorted :
    List.Pairwise (fun a b => jsParseInt a < jsParseInt b) ALL_TIMES := by decide

theorem blockedCond_iff (a : Bool) (p q : Prop) [Decidable p] [Decidable q] :
    (decide p || !a || decide q) = true ↔ p ∨ a = false ∨ q := by
  cases a <;> by_cases hp : p <;> by_cases hq : q <;> simp [hp, hq]

theorem candRefine_eq (p q : String → Bool) :
    (((ALL_TIMES.map (fun h => h ++ ":00")).filter p).filter q).map slotKeyHour =
      ALL_TIMES.filter (fun h => q (h ++ ":00") && p (h ++ ":00")) := by
  have hid : ∀ x ∈ ALL_TIMES, slotKeyHour (x ++ ":00") = id x := by decide
  rw [List.filter_map, List.filter_map, List.map_map, List.filter_filter]
  calc
    List.map (slotKeyHour ∘ fun h => h ++ ":00")
        (ALL_TIMES.filter fun a =>
          (q ∘ fun h => h ++ ":00") a && (p ∘ fun h => h ++ ":00") a) =
      List.map id
        (ALL_TIMES.filter fun a =>
          (q ∘ fun h => h ++ ":00") a && (p ∘ fun h => h ++ ":00") a) :=
        List.map_congr_left fun x hx => hid x (List.mem_of_mem_filter hx)
    _ = ALL_TIMES.filter fun h => q (h ++ ":00") && p (h ++ ":00") := List.map_id _

/-! ### Claim C1 -/

/-- C1 counterexample: the quote of the promotional variant has `totalPrice` 25
(the flat deposit) while `round2(labourCharge + addOnsTotal + suppliesFee)`
is 0, so the claimed invariant equation fails on the promotional variant. -/
theorem quote_total_counterexample :
    pricingPromo.totalPrice = 25 ∧
      round2 (pricingPromo.labour + pricingPromo.addOnsTotal + pricingPromo.suppliesFee) = 0 ∧
      pricingPromo.totalPrice ≠
        round2 (pricingPromo.labour + pricingPromo.addOnsTotal + pricingPromo.suppliesFee) := by
  refine ⟨rfl, by decide, by decide⟩

/-- C1 (amended): every quote of the residential and the two office pricing
variants satisfies `estimatedHours ≥ MIN_HOURS` (= 2) and
`totalPrice = round2(labourCharge + addOnsTotal + suppliesFee)`; the
promotional variant satisfies `estimatedHours = 1 ≥ MIN_HOURS` (= 1) but its
`totalPrice` is the flat £25 deposit instead of the rounded sum (which is
0). -/
theorem quote_invariants :
    (∀ f : HomeForm, quoteInvariant (pricingHome f) 2) ∧
      (∀ (rooms : List RoomSel) (extras : Extras) (cleanliness products : String)
          (weekendSel : Bool),
        quoteInvariant (pricingOffice2 rooms extras cleanliness products weekendSel) 2) ∧
      (∀ (rooms : List RoomSel) (kitchensCount : ℕ) (kitchenSizeId : String)
          (toiletRoomsCount avgCubicles : ℕ) (extras : Extras)
          (cleanliness products : String),
        quoteInvariant
          (pricingOffice1 rooms kitchensCount kitchenSizeId toiletRoomsCount
            avgCubicles extras cleanliness products) 2) ∧
      ((1 : ℚ) ≤ pricingPromo.estimatedHours ∧ pricingPromo.totalPrice = 25) := by
  refine ⟨fun f => ⟨le_max_left _ _, rfl⟩,
    fun rooms extras c p w => ⟨le_max_left _ _, rfl⟩,
    fun rooms kc ks tc ac e c p => ⟨le_max_left _ _, rfl⟩,
    le_refl _, rfl⟩

/-! ### Claim C6 -/

/-- C6: in each non-promotional pricing variant the team rule holds: with
threshold 4 and factor 1.6 (home clean), threshold 4 and factor 1.7
(office v2), and threshold 6 and factor 1.7 (older office), `teamApplied`
is true exactly when `baseEstimatedHours` exceeds the threshold, in which
case `estimatedHours = max(MIN_HOURS, roundUpToHalf(base / factor))`, and
otherwise `estimatedHours = baseEstimatedHours`; in both cases
`estimatedHours ≤ baseEstimatedHours`. -/
theorem team_rule_all_variants :
    (∀ f : HomeForm, teamRuleSpec (pricingHome f) 2 4 (8 / 5)) ∧
      (∀ (rooms : List RoomSel) (extras : Extras) (cleanliness products : String)
          (weekendSel : Bool),
        teamRuleSpec (pricingOffice2 rooms extras cleanliness products weekendSel)
          2 4 (17 / 10)) ∧
      (∀ (rooms : List RoomSel) (kitchensCount : ℕ) (kitchenSizeId : String)
          (toiletRoomsCount avgCubicles : ℕ) (extras : Extras)
          (cleanliness products : String),
        teamRuleSpec
          (pricingOffice1 rooms kitchensCount kitchenSizeId toiletRoomsCount
            avgCubicles extras cleanliness products) 2 6 (17 / 10)) := by
  refine ⟨fun f => ?_, fun rooms extras c p w => ?_, fun rooms kc ks tc ac e c p => ?_⟩
  · exact teamRule_core 2 4 (8 / 5) _ ⟨4, by norm_num⟩ (by norm_num) (by norm_num)
  · exact teamRule_core 2 4 (17 / 10) _ ⟨4, by norm_num⟩ (by norm_num) (by norm_num)
  · exact teamRule_core 2 6 (17 / 10) _ ⟨4, by norm_num⟩ (by norm_num) (by norm_num)

/-! ### Claim C7 -/

/-- C7: for every non-empty input the phone normaliser returns exactly the
four-case result the claim describes (leading-0-with-ten-digits to `+44`,
`44`-led digits to `+`-prefix, `+`-led originals trimmed and kept, all else
`+`-prefixed digits), and the three concrete examples map as stated. -/
theorem phone_normaliser_cases :
    (∀ raw : String, raw ≠ "" →
        toE164UK raw =
          some
            (let digits := String.mk (raw.data.filter Char.isDigit)
             if strStartsWith digits "0" ∧ 10 ≤ digits.length then
               "+44" ++ String.mk (digits.data.drop 1)
             else if strStartsWith digits "44" then "+" ++ digits
             else if strStartsWith (jsTrim raw) "+" then jsTrim raw
             else "+" ++ digits)) ∧
      toE164UK "07123456789" = some "+447123456789" ∧
      toE164UK "442071234567" = some "+442071234567" ∧
      toE164UK "+1 212 555 0100" = some "+1 212 555 0100" := by
  refine ⟨fun raw h => ?_, by decide, by decide, by decide⟩
  rw [toE164UK, if_neg h]
  simp only [apply_ite Option.some]

/-- C7 witness: the general case characterisation applied to the concrete
`07123456789` input. -/
theorem phone_normaliser_witness :
    ("07123456789" : String) ≠ "" ∧ toE164UK "07123456789" = some "+447123456789" :=
  ⟨by decide, (phone_normaliser_cases.1 "07123456789" (by decide)).trans (by decide)⟩

/-! ### Claim C10 -/

/-- C10: `addHoursToTime` renders `minutes(start) + round(60·h)` total
minutes with the hour field taken by integer division and not reduced
modulo 24; concretely a 20:00 start plus 5 hours yields `"25:00"`, whose
hour field 25 is not a valid same-day 24-hour clock hour, and 5 estimated
hours is reachable from the home-clean pricing while `"20"` is an offered
slot label. -/
theorem addHours_no_mod24 :
    (∀ (t hs ms : String) (hf : ℚ), 0 ≤ hf → jsSplit t ':' = [hs, ms] → ms ≠ "" →
        addHoursToTime t hf = endTimeOfMinutes (timeToMinutes t + jsRound (hf * 60))) ∧
      addHoursToTime "20:00" 5 = "25:00" ∧
      hourField (addHoursToTime "20:00" 5) = 25 ∧
      ¬hourField (addHoursToTime "20:00" 5) < 24 ∧
      (pricingHome homeFormFiveHours).estimatedHours = 5 ∧
      addHoursToTime "20:00" (pricingHome homeFormFiveHours).estimatedHours = "25:00" ∧
      "20" ∈ ALL_TIMES := by
  refine ⟨fun t hs ms hf h0 hsplit hne => ?_, by decide, by decide, by decide,
    by decide, by decide, by decide⟩
  simp [addHoursToTime, endTimeOfMinutes, timeToMinutes, hsplit, hne]

/-- C10 witness: the general formula applied at the concrete 20:00 start
with 5 hours. -/
theorem addHours_no_mod24_witness :
    (0 : ℚ) ≤ 5 ∧ jsSplit "20:00" ':' = ["20", "00"] ∧ ("00" : String) ≠ "" ∧
      addHoursToTime "20:00" 5 = endTimeOfMinutes (timeToMinutes "20:00" + jsRound (5 * 60)) :=
  ⟨by norm_num, by decide, by decide,
    addHours_no_mod24.1 "20:00" "20" "00" 5 (by norm_num) (by decide) (by decide)⟩

/-! ### Claim C2 -/

/-- C2: with one staff member working 09:00–17:00 on the weekday of the date,
travel buffer 30, no override removals, a passing notice cutoff, and one
existing 12:00–13:00 booking, the conflict filter offers exactly
9,10,11,14,15,16: slots 12 and 13 are excluded while 11 and 14 survive,
and a slot minute collides with the booking exactly when it lies in the
expanded window `[max(0, 720 − 30), 780 + 30) = [690, 810)`. -/
theorem conflict_filter_scenario :
    loadTimes false (fun _ => false) [bookingNoon] [staffNine2Five] "monday" 0 0 =
        ["9", "10", "11", "14", "15", "16"] ∧
      (loadTimes false (fun _ => false) [bookingNoon] [staffNine2Five] "monday" 0 0).contains
          "12" = false ∧
      (loadTimes false (fun _ => false) [bookingNoon] [staffNine2Five] "monday" 0 0).contains
          "13" = false ∧
      "11" ∈ loadTimes false (fun _ => false) [bookingNoon] [staffNine2Five] "monday" 0 0 ∧
      "14" ∈ loadTimes false (fun _ => false) [bookingNoon] [staffNine2Five] "monday" 0 0 ∧
      timeToMinutes "12:00" = 720 ∧ timeToMinutes "13:00" = 780 ∧
      (∀ m : ℚ, bookingBlocks 30 m bookingNoon = true ↔ 690 ≤ m ∧ m < 810) := by
  refine ⟨by decide, by decide, by decide, by decide, by decide, by decide, by decide,
    fun m => ?_⟩
  have h12 : timeToMinutes "12:00" = 720 := by decide
  have h13 : timeToMinutes "13:00" = 780 := by decide
  simp only [bookingBlocks, bookingNoon, h12, h13, within]
  norm_num
  exact fun _ _ => ⟨by decide, by decide⟩

/-! ### Claim C9 -/

/-- C9: on a fetch failure the blocked-date scanner resolves to the empty
blocked set (fail open) and the conflict filter resolves to the empty slot
list (fail closed); both return normally instead of propagating the
error. -/
theorem fetch_failure_policies :
    ∀ (e : String) (todayIdx : ℤ) (nowMins : ℚ) (weekdayOf : ℤ → String)
      (dateBlocked : Bool) (weekday : String) (dayStartMins nowMins2 : ℚ),
      computeBlockedDaysRun (.error e) todayIdx nowMins weekdayOf = [] ∧
        loadTimesRun dateBlocked (.error e) weekday dayStartMins nowMins2 = [] :=
  fun _ _ _ _ _ _ _ _ => ⟨rfl, rfl⟩

/-! ### Claim C3 -/

/-- C3: the conflict filter only ever returns hour labels from the fixed
`ALL_TIMES` grid, none of which the override pre-removed, in strictly
ascending hour order; and the result is empty whenever the date is blocked
or no active staff member works the weekday. -/
theorem conflict_filter_invariants (dateBlocked : Bool) (removed : String → Bool)
    (bookings : List Booking) (roster : List Staff) (weekday : String)
    (dayStartMins nowMins : ℚ) :
    (∀ h ∈ loadTimes dateBlocked removed bookings roster weekday dayStartMins nowMins,
        h ∈ ALL_TIMES ∧ removed (h ++ ":00") = false) ∧
      List.Pairwise (fun a b => jsParseInt a < jsParseInt b)
        (loadTimes dateBlocked removed bookings roster weekday dayStartMins nowMins) ∧
      (dateBlocked = true →
        loadTimes dateBlocked removed bookings roster weekday dayStartMins nowMins = []) ∧
      (((roster.filter staffActive).filter (staffWorks weekday)).isEmpty = true →
        loadTimes dateBlocked removed bookings roster weekday dayStartMins nowMins = []) := by
  cases hb : dateBlocked with
  | true =>
    have hout : loadTimes true removed bookings roster weekday dayStartMins nowMins = [] := rfl
    refine ⟨?_, ?_, fun _ => hout, fun _ => hout⟩
    · rw [hout]; intro h hmem; cases hmem
    · rw [hout]; exact List.Pairwise.nil
  | false =>
    cases hd : ((roster.filter staffActive).filter (staffWorks weekday)).isEmpty with
    | true =>
      have hout : loadTimes false removed bookings roster weekday dayStartMins nowMins = [] := by
        simp only [loadTimes, Bool.false_eq_true, if_false, hd, if_true]
      refine ⟨?_, ?_, fun ht => absurd ht (by decide), fun _ => hout⟩
      · rw [hout]; intro h hmem; cases hmem
      · rw [hout]; exact List.Pairwise.nil
    | false =>
      have hL : loadTimes false removed bookings roster weekday dayStartMins nowMins =
          ALL_TIMES.filter (fun h =>
            (!decide (dayStartMins + (jsParseInt (slotKeyHour (h ++ ":00")) : ℚ) * 60 <
                nowMins +
                  listMinD 12
                    (((roster.filter staffActive).filter (staffWorks weekday)).map
                      (fun s => s.minNoticeHours.getD 12)) * 60) &&
              ((roster.filter staffActive).filter (staffWorks weekday)).any
                (staffFree weekday bookings (timeToMinutes (h ++ ":00") : ℚ))) &&
            !removed (h ++ ":00")) := by
        simp only [loadTimes, Bool.false_eq_true, if_false, hd]
        exact candRefine_eq _ _
      refine ⟨?_, ?_, fun ht => absurd ht (by decide), ?_⟩
      · intro h hmem
        rw [hL] at hmem
        obtain ⟨hmemAll, hcond⟩ := List.mem_filter.mp hmem
        refine ⟨hmemAll, ?_⟩
        have h2 := ((Bool.and_eq_true _ _).mp hcond).2
        simpa using h2
      · rw [hL]
        exact List.Pairwise.filter _ allTimes_sorted
      · intro ht
        exact absurd ht (by decide)

/-- C3 witness: a blocked date yields the empty slot list. -/
theorem conflict_filter_invariants_witness :
    loadTimes true (fun _ => false) [] [] "monday" 0 0 = [] :=
  (conflict_filter_invariants true (fun _ => false) [] [] "monday" 0 0).2.2.1 rfl

/-! ### Claim C4 -/

/-- C4: a date is in the blocked set of the scanner exactly when it lies in the
90-day window `[today − 30, today + 60)` and is before today, or no active
staff member is available on its weekday, or now plus the global minimum
notice lands strictly after 20:00 of that date; in particular every window
date before today is blocked. -/
theorem blocked_scanner_characterisation (roster : List Staff) (todayIdx : ℤ)
    (nowMins : ℚ) (weekdayOf : ℤ → String) :
    (∀ d : ℤ,
        d ∈ computeBlockedDays roster todayIdx nowMins weekdayOf ↔
          (todayIdx - 30 ≤ d ∧ d < todayIdx + 60) ∧
            (d < todayIdx ∨
              staffAvailableOn (roster.filter staffActive) (weekdayOf d) = false ∨
              nowMins + globalMinNotice roster * 60 > (d : ℚ) * 1440 + 1200)) ∧
      (∀ d : ℤ, todayIdx - 30 ≤ d → d < todayIdx →
        d ∈ computeBlockedDays roster todayIdx nowMins weekdayOf) := by
  have main : ∀ d : ℤ,
      d ∈ computeBlockedDays roster todayIdx nowMins weekdayOf ↔
        (todayIdx - 30 ≤ d ∧ d < todayIdx + 60) ∧
          (d < todayIdx ∨
            staffAvailableOn (roster.filter staffActive) (weekdayOf d) = false ∨
            nowMins + globalMinNotice roster * 60 > (d : ℚ) * 1440 + 1200) := by
    intro d
    simp only [computeBlockedDays, List.mem_filter, List.mem_map, List.mem_range,
      blockedCond_iff]
    constructor
    · rintro ⟨⟨i, hi, rfl⟩, hcond⟩
      exact ⟨by omega, hcond⟩
    · rintro ⟨⟨h1, h2⟩, hcond⟩
      exact ⟨⟨(d - (todayIdx - 30)).toNat, by omega, by omega⟩, hcond⟩
  exact ⟨main, fun d h1 h2 => (main d).mpr ⟨⟨h1, by omega⟩, Or.inl h2⟩⟩

/-- C4 witness: with an empty roster, a window date five days before today
is blocked. -/
theorem blocked_scanner_witness :
    ((0 : ℤ) - 30 ≤ -5 ∧ (-5 : ℤ) < 0) ∧
      (-5 : ℤ) ∈ computeBlockedDays [] 0 0 (fun _ => "monday") :=
  ⟨⟨by norm_num, by norm_num⟩,
    (blocked_scanner_characterisation [] 0 0 (fun _ => "monday")).2 (-5)
      (by norm_num) (by norm_num)⟩

/-! ### Claim C5 -/

/-- C5 counterexample: in the older office variant a submission with the
postcode (and the whole address) missing is not rejected — it proceeds
straight to the persistence write. -/
theorem submit_missing_postcode_counterexample :
    missingPostcodeForm.postcode = "" ∧
      onSubmitOffice1 (some "2026-11-02") "9" missingPostcodeForm =
        .ok [.persistBooking] ∧
      aborted (onSubmitOffice1 (some "2026-11-02") "9" missingPostcodeForm) = false ∧
      Effect.persistBooking ∈
        effectsOf (onSubmitOffice1 (some "2026-11-02") "9" missingPostcodeForm) := by
  refine ⟨rfl, by decide, by decide, by decide⟩

/-- C5 (amended): the promo and office-v2 variants reject a submission with
a missing postcode (or address line 1 or town) with a validation error and
perform no side effect; every variant likewise rejects missing contact
fields (and the older office and home-clean variants validate only
date/time and contact fields, so the address check does not exist there). -/
theorem submit_validation_no_side_effects :
    (∀ (selD : Option String) (selT : String) (f : PromoForm),
        f.addressLine1 = "" ∨ f.town = "" ∨ f.postcode = "" →
          aborted (onSubmitPromo selD selT f) = true ∧
            effectsOf (onSubmitPromo selD selT f) = []) ∧
      (∀ (selD : Option String) (selT : String) (f : Office2Form) (q : Quote),
        f.addressLine1 = "" ∨ f.town = "" ∨ f.postcode = "" →
          aborted (onSubmitOffice2 selD selT f q) = true ∧
            effectsOf (onSubmitOffice2 selD selT f q) = []) ∧
      (∀ (selD : Option String) (selT : String) (f : PromoForm),
        f.customerName = "" ∨ f.customerEmail = "" ∨ f.customerPhone = "" →
          aborted (onSubmitPromo selD selT f) = true ∧
            effectsOf (onSubmitPromo selD selT f) = []) ∧
      (∀ (selD : Option String) (selT : String) (f : Office1Form),
        selD = none ∨ selT = "" ∨ f.customerName = "" ∨ f.customerEmail = "" ∨
            f.customerPhone = "" →
          aborted (onSubmitOffice1 selD selT f) = true ∧
            effectsOf (onSubmitOffice1 selD selT f) = []) ∧
      (∀ (zapConfigured : Bool) (selD : Option String) (selT : String) (f : Home4Form),
        selD = none ∨ selT = "" ∨ f.customerName = "" ∨ f.customerEmail = "" ∨
            f.customerPhone = "" →
          aborted (onSubmitHome4 zapConfigured selD selT f) = true ∧
            effectsOf (onSubmitHome4 zapConfigured selD selT f) = []) := by
  refine ⟨fun selD selT f hf => ?_, fun selD selT f q hf => ?_, fun selD selT f hf => ?_,
    fun selD selT f hf => ?_, fun zc selD selT f hf => ?_⟩
  · unfold onSubmitPromo
    split_ifs <;> simp_all [aborted, effectsOf]
  · unfold onSubmitOffice2
    split_ifs <;> simp_all [aborted, effectsOf]
  · unfold onSubmitPromo
    split_ifs <;> simp_all [aborted, effectsOf]
  · unfold onSubmitOffice1
    split_ifs <;> simp_all [aborted, effectsOf]
  · unfold onSubmitHome4
    split_ifs <;> simp_all [aborted, effectsOf]

/-- C5 witness: the promo variant rejects a concrete submission whose only
missing field is the postcode, with no effects performed. -/
theorem submit_validation_witness :
    aborted
        (onSubmitPromo (some "2026-11-02") "9"
          { customerName := "Jane Doe", customerEmail := "jane@example.com",
            customerPhone := "07123456789", addressLine1 := "1 High St",
            town := "Manchester", postcode := "", products := "bring",
            serviceType := "" }) = true ∧
      effectsOf
          (onSubmitPromo (some "2026-11-02") "9"
            { customerName := "Jane Doe", customerEmail := "jane@example.com",
              customerPhone := "07123456789", addressLine1 := "1 High St",
              town := "Manchester", postcode := "", products := "bring",
              serviceType := "" }) = [] :=
  submit_validation_no_side_effects.1 (some "2026-11-02") "9" _ (Or.inr (Or.inr rfl))

/-! ### Claim C8 -/

/-- C8: `getDayAvail` resolves the lower-case weekday key first and falls
back to the capitalised key only when the lower-case entry is absent;
it returns `null` exactly when the resolved value is absent or not an
object; and for a record it defaults a missing/empty start to `07:00` and a
missing/empty end to `20:00` independently of each other — in particular a
record carrying only `endTime "18:00"` yields start `07:00` and end
`18:00`. -/
theorem day_avail_lookup_defaults :
    (∀ (obj : AvailObj) (day : String), obj day ≠ .absent →
        getDayAvail obj day = resolveAvail (obj day)) ∧
      (∀ (obj : AvailObj) (day : String), obj day = .absent →
        getDayAvail obj day = resolveAvail (obj (titleCaseDay day))) ∧
      (∀ v : AvailVal, resolveAvail v = none ↔ v = .absent ∨ v = .nonObj) ∧
      (∀ e : AvailEntry, truthyOpt e.startTime = false → truthyOpt e.fromTime = false →
        resolveAvail (.entry e) =
          some { available := e.available, start := "07:00",
                 stop := orStr e.endTime (orStr e.toTime "20:00") }) ∧
      (∀ e : AvailEntry, truthyOpt e.endTime = false → truthyOpt e.toTime = false →
        resolveAvail (.entry e) =
          some { available := e.available,
                 start := orStr e.startTime (orStr e.fromTime "07:00"),
                 stop := "20:00" }) ∧
      getDayAvail exampleAvailObj "monday" =
        some { available := true, start := "07:00", stop := "18:00" } := by
  refine ⟨?_, ?_, ?_, ?_, ?_, by decide⟩
  · intro obj day h
    cases hv : obj day with
    | absent => exact absurd hv h
    | nonObj => simp [getDayAvail, hv]
    | entry e => simp [getDayAvail, hv]
  · intro obj day h
    simp [getDayAvail, h]
  · intro v
    cases v <;> simp [resolveAvail]
  · intro e h1 h2
    rw [resolveAvail, orStr_of_falsy _ _ h1, orStr_of_falsy _ _ h2]
  · intro e h1 h2
    rw [resolveAvail, orStr_of_falsy _ _ h1, orStr_of_falsy _ _ h2]

/-- C8 witness: the lookup-order and defaulting clauses applied to the
concrete example object. -/
theorem day_avail_lookup_witness :
    getDayAvail exampleAvailObj "monday" = resolveAvail (exampleAvailObj "monday") ∧
      resolveAvail
          (.entry { available := true, startTime := none, endTime := some "18:00",
                    fromTime := none, toTime := none }) =
        some { available := true, start := "07:00", stop := "18:00" } :=
  ⟨day_avail_lookup_defaults.1 exampleAvailObj "monday" (by decide),
    (day_avail_lookup_defaults.2.2.2.1
        { available := true, startTime := none, endTime := some "18:00",
          fromTime := none, toTime := none } (by decide) (by decide)).trans (by decide)⟩

end Luxen
